import Mathlib

/-!
A shallow embedding of the self-healing setup runner in `pkg/setup`
(`runCommand`, `runCommandWithMode`, `getBinaryName`, `waitForBinary`,
`askYesNo`, `fixAndRunCommandWithMeta`), together with theorems checking
the specification's statements about it.

The outside world (the shell, the executable search path, the fix advisor,
the user at the prompt) is a `World` of oracles indexed by a logical clock;
the clock ticks once per observable event, so an oracle may answer
differently at different points of a run.  Every core function returns,
next to its Go return value, the list of `Event`s it caused: spawning a
child process, a search-path lookup, a sleep, an advisor call, a yes/no
prompt, and the launch of a fix.  Recursion in `fixAndRunCommandWithMeta`
is unbounded in Go, so the embedding takes a fuel argument; running out of
fuel is reported as `LoopResult.fuelOut`, an artifact of the embedding and
never a behavior of the code.
-/

namespace Zup

/-- What one `bash -c` child process does: its exit status and what it
writes on its standard output and standard error streams. -/
structure CmdRes where
  exitZero : Bool
  stdout : String
  stderr : String
  deriving DecidableEq

/-- The observable events of the core: `exec` is one spawned child process
(`runCommand`, i.e. one `exec.Command("bash", "-c", ...).Run()`),
`reprint` the post-completion print of the buffered stdout, `checkPath`
one `exec.LookPath` query, `sleep` one `time.Sleep`, `advisorCall` one
call of `getFixFromOpenAIWithMeta`, `prompt` one `askYesNo` read from
standard input (recording the fix under consideration), and `fixLaunch`
the recursive invocation of the loop on a suggested fix, recording the
mode that invocation was given. -/
inductive Event where
  | exec (command : String) (suppressOutput : Bool)
  | reprint (out : String)
  | checkPath (binary : String)
  | sleep
  | advisorCall (command errMsg meta : String)
  | prompt (fix : String)
  | fixLaunch (fix mode : String)
  deriving DecidableEq

/-- The environment's oracles, indexed by a logical clock (the number of
events that happened before the query): what `bash -c` does with a command,
whether a binary is on the executable search path, the text of
`exec.LookPath`'s error when it is not, what the advisor
(`getFixFromOpenAIWithMeta`) answers — a `(fix, explanation)` pair, with an
empty `fix` exactly when the advisor is unavailable (missing credential,
transport error, unparsable response) — and the line the user types at a
prompt. -/
structure World where
  cmdRes : Nat → String → CmdRes
  path : Nat → String → Bool
  pathErrText : Nat → String → String
  advisor : Nat → String → String → String → String × String
  input : Nat → String

/-- A Go `error` return value (`none` is `nil`) plus the events caused. -/
structure Outcome where
  err : Option String
  events : List Event
  deriving DecidableEq

/-- `strings.ToLower` of the Go standard library, on the characters of the
string (structurally recursive, unlike `String.toLower`). -/
def toLowerStr (s : String) : String :=
  ⟨s.data.map Char.toLower⟩

/-- `strings.TrimSpace` of the Go standard library: drop leading and
trailing whitespace (structurally recursive, unlike `String.trim`). -/
def trimStr (s : String) : String :=
  ⟨((s.data.dropWhile Char.isWhitespace).reverse.dropWhile Char.isWhitespace).reverse⟩

/-- The contents of `runCommand`'s local `stdout` buffer when the child
exits: the buffer is wired to the child (`cmd.Stdout = &stdout`) only when
`suppressOutput` holds; otherwise `cmd.Stdout = os.Stdout` replaces it and
the buffer receives nothing. -/
def stdoutBufferContents (w : World) (t : Nat) (command : String)
    (suppressOutput : Bool) : String :=
  if suppressOutput then (w.cmdRes t command).stdout else ""

/-- `runCommand` from the source: run `bash -c command`; stderr is always
buffered, stdout is buffered only when suppressing (else it streams to the
terminal).  On non-zero exit return the trimmed `stdout + "\n" + stderr`
when suppressing, and the buffered stderr alone when not; on zero exit,
reprint the buffered stdout when not suppressing and it is non-empty. -/
def runCommand (w : World) (t : Nat) (command : String)
    (suppressOutput : Bool) : Outcome :=
  let r := w.cmdRes t command
  let stdoutBuf := stdoutBufferContents w t command suppressOutput
  let stderrBuf := r.stderr
  if r.exitZero = false then
    if suppressOutput then
      { err := some (trimStr (stdoutBuf ++ "\n" ++ stderrBuf))
        events := [.exec command suppressOutput] }
    else
      { err := some stderrBuf, events := [.exec command suppressOutput] }
  else
    if suppressOutput = false ∧ stdoutBuf ≠ "" then
      { err := none, events := [.exec command suppressOutput, .reprint stdoutBuf] }
    else
      { err := none, events := [.exec command suppressOutput] }

/-- `getBinaryName` from the source: the first whitespace-delimited field
of the command (the head of `strings.Fields(cmd)`: skip leading
whitespace, take up to the next whitespace), or `""` when there is none. -/
def getBinaryName (cmd : String) : String :=
  ⟨(cmd.data.dropWhile Char.isWhitespace).takeWhile (fun c => !c.isWhitespace)⟩

/-- `runCommandWithMode` from the source.  In `"background"` mode: take the
command's first field as the target binary; fail at once when it is empty
or not on the search path (one `LookPath`, no spawn); otherwise wrap the
command in `nohup ... > background_command.log 2>&1 &` and hand it to
`runCommand` with `suppressOutput = true`.  Any other mode hands the
command to `runCommand` with `suppressOutput = false`. -/
def runCommandWithMode (w : World) (t : Nat) (command mode : String) : Outcome :=
  if mode = "background" then
    let binary := getBinaryName command
    if binary = "" then
      { err := some ("could not determine binary for background command: " ++ command)
        events := [] }
    else if w.path t binary then
      let r := runCommand w (t + 1)
        ("nohup " ++ command ++ " > background_command.log 2>&1 &") true
      { err := r.err, events := .checkPath binary :: r.events }
    else
      { err := some ("binary '" ++ binary ++ "' not found: " ++ w.pathErrText t binary)
        events := [.checkPath binary] }
  else
    runCommand w t command false

/-- The acceptance test of `askYesNo` on the line scanned from standard
input: lowercase it and compare with `"y"` and `"yes"`; no trimming. -/
def askYesNoAccepts (resp : String) : Bool :=
  (toLowerStr resp == "y") || (toLowerStr resp == "yes")

/-- `waitForBinary` from the source: up to `maxTries` search-path checks
for `binary`; return `true` at the first hit, otherwise sleep `delay` and
try again — the Go loop body sleeps after every failed check, including
the last one.  The clock advances by one per check and one per sleep. -/
def waitForBinary (w : World) (t : Nat) (binary : String) : Nat → Bool × List Event
  | 0 => (false, [])
  | maxTries + 1 =>
    if w.path t binary then (true, [.checkPath binary])
    else
      let rest := waitForBinary w (t + 2) binary maxTries
      (rest.1, .checkPath binary :: .sleep :: rest.2)

/-- On success `fixAndRunCommandWithMeta` returns `nil` (`ok`), on failure
an error string (`fail`); `fuelOut` marks the embedding's recursion budget
running out and corresponds to no behavior of the code. -/
inductive LoopResult where
  | ok
  | fail (err : String)
  | fuelOut
  deriving DecidableEq

/-- One unfolding of `fixAndRunCommandWithMeta`'s body, with `recur`
standing for the recursive calls: run the command in its mode; on failure
ask the advisor for `(fix, explanation)`, prompt the user, and if the user
accepts, run the whole loop on the fix with the mode argument `""` (the
same-terminal default); if that fix loop succeeds and the original mode
was `"background"`, poll `waitForBinary` (10 tries) on the original
command's binary, failing with a distinct error when it never appears;
otherwise re-run the loop on the original command, meta and mode.  A
declined fix returns the original command's error; a failed fix loop
returns the fix's own error. -/
def fixStep (w : World) (recur : Nat → String → String → String → LoopResult × List Event)
    (t : Nat) (command meta mode : String) : LoopResult × List Event :=
  let r := runCommandWithMode w t command mode
  match r.err with
  | none => (.ok, r.events)
  | some errMsg =>
    let t1 := t + r.events.length
    let fix := (w.advisor t1 command errMsg meta).1
    let evHead := r.events ++ [Event.advisorCall command errMsg meta, Event.prompt fix]
    if askYesNoAccepts (w.input (t1 + 1)) then
      let inner := recur (t1 + 3) fix meta ""
      let evFix := evHead ++ Event.fixLaunch fix "" :: inner.2
      match inner.1 with
      | .ok =>
        let t4 := t1 + 3 + inner.2.length
        if mode = "background" then
          let poll := waitForBinary w t4 (getBinaryName command) 10
          if poll.1 then
            let retry := recur (t4 + poll.2.length) command meta mode
            (retry.1, evFix ++ poll.2 ++ retry.2)
          else
            (.fail ("binary '" ++ getBinaryName command ++ "' still not found after fix"),
             evFix ++ poll.2)
        else
          let retry := recur t4 command meta mode
          (retry.1, evFix ++ retry.2)
      | .fail fixErr => (.fail fixErr, evFix)
      | .fuelOut => (.fuelOut, evFix)
    else
      (.fail errMsg, evHead)

/-- `fixAndRunCommandWithMeta` from the source, as a fuelled recursion:
each recursive call of the Go function (running a fix, or re-running the
original command after a fix) spends one unit of fuel. -/
def fixAndRunCommandWithMeta (w : World) :
    Nat → Nat → String → String → String → LoopResult × List Event
  | 0, _, _, _, _ => (.fuelOut, [])
  | fuel + 1, t, command, meta, mode =>
    fixStep w (fixAndRunCommandWithMeta w fuel) t command meta mode

/-- Event classifier: a spawned child process. -/
def isExec : Event → Bool
  | .exec _ _ => true
  | _ => false

/-- Event classifier: a spawned child process with the given suppression. -/
def isExecWith (b : Bool) : Event → Bool
  | .exec _ s => s == b
  | _ => false

/-- Event classifier: the post-completion reprint of buffered stdout. -/
def isReprint : Event → Bool
  | .reprint _ => true
  | _ => false

/-- Event classifier: one `time.Sleep`. -/
def isSleep : Event → Bool
  | .sleep => true
  | _ => false

/-- Event classifier: one `exec.LookPath` query. -/
def isCheckPath : Event → Bool
  | .checkPath _ => true
  | _ => false

/-- Event classifier: one advisor call. -/
def isAdvisorCall : Event → Bool
  | .advisorCall _ _ _ => true
  | _ => false

/-- Event classifier: the launch of a fix by the loop. -/
def isFixLaunch : Event → Bool
  | .fixLaunch _ _ => true
  | _ => false

/-- The event trace of an exhausted `waitForBinary` run: one failed check
followed by one sleep, `n` times over. -/
def pollFailTrace (binary : String) : Nat → List Event
  | 0 => []
  | n + 1 => .checkPath binary :: .sleep :: pollFailTrace binary n

/-- A time-independent world: fixed behavior per command, fixed search
path, fixed lookup-failure text, fixed advisor answer, fixed user line. -/
def mkWorld (res : String → CmdRes) (present : String → Bool)
    (fixRes : String × String) (line : String) : World :=
  { cmdRes := fun _ c => res c
    path := fun _ b => present b
    pathErrText := fun _ _ => "executable file not found in PATH"
    advisor := fun _ _ _ _ => fixRes
    input := fun _ => line }

/-- Every non-empty command fails with stderr `boom`; the advisor is
unavailable (empty fix, the missing-credential explanation); the user
always accepts.  The empty command — the unavailable advisor's fix —
exits zero, as `bash -c ""` does. -/
def wAcceptUnavailable : World :=
  mkWorld (fun c => if c = "" then ⟨true, "", ""⟩ else ⟨false, "", "boom"⟩)
    (fun _ => true) ("", "Missing OPENAI_API_KEY") "y"

/-- Every command fails with stderr `boom`; the advisor is unavailable;
the user always declines. -/
def wDeclineUnavailable : World :=
  mkWorld (fun _ => ⟨false, "", "boom"⟩)
    (fun _ => true) ("", "Missing OPENAI_API_KEY") "n"

/-- Every command exits zero quietly and every binary is on the path. -/
def wAllOk : World :=
  mkWorld (fun _ => ⟨true, "", ""⟩) (fun _ => true) ("echo fix", "because") "n"

/-- Every command fails writing `a` on stdout and `b` on stderr. -/
def wOutErr : World :=
  mkWorld (fun _ => ⟨false, "a", "b"⟩) (fun _ => true) ("echo fix", "because") "n"

/-- No binary is ever on the executable search path. -/
def wAbsent : World :=
  mkWorld (fun _ => ⟨true, "", ""⟩) (fun _ => false) ("echo fix", "because") "n"

/-- Out of fuel, the embedded loop reports the budget artifact. -/
lemma fixAndRun_zero (w : World) (t : Nat) (c m mode : String) :
    fixAndRunCommandWithMeta w 0 t c m mode = (.fuelOut, []) := rfl

/-- One unfolding of the fuelled loop. -/
lemma fixAndRun_succ (w : World) (fuel t : Nat) (c m mode : String) :
    fixAndRunCommandWithMeta w (fuel + 1) t c m mode =
      fixStep w (fixAndRunCommandWithMeta w fuel) t c m mode := rfl

/-- The trace of one `runCommand`: the spawn, possibly followed by the
reprint of the buffered stdout. -/
lemma runCommand_events (w : World) (t : Nat) (c : String) (s : Bool) :
    (runCommand w t c s).events = [Event.exec c s]
    ∨ (runCommand w t c s).events =
        [Event.exec c s, Event.reprint (stdoutBufferContents w t c s)] := by
  unfold runCommand
  dsimp only
  split
  · split
    · exact Or.inl rfl
    · exact Or.inl rfl
  · split
    · exact Or.inr rfl
    · exact Or.inl rfl

/-- `runCommand` only spawns the one child and possibly reprints. -/
lemma mem_runCommand_events {w : World} {t : Nat} {c : String} {s : Bool} {e : Event}
    (h : e ∈ (runCommand w t c s).events) :
    (∃ c' s', e = Event.exec c' s') ∨ ∃ o, e = Event.reprint o := by
  rcases runCommand_events w t c s with he | he <;> rw [he] at h <;>
    simp only [List.mem_singleton, List.mem_cons, List.not_mem_nil, or_false] at h
  · exact Or.inl ⟨_, _, h⟩
  · rcases h with h | h
    · exact Or.inl ⟨_, _, h⟩
    · exact Or.inr ⟨_, h⟩

/-- The possible traces of one `runCommandWithMode`. -/
lemma runCommandWithMode_events (w : World) (t : Nat) (c mode : String) :
    (runCommandWithMode w t c mode).events = []
    ∨ (runCommandWithMode w t c mode).events = [Event.checkPath (getBinaryName c)]
    ∨ (runCommandWithMode w t c mode).events =
        Event.checkPath (getBinaryName c) ::
          (runCommand w (t + 1) ("nohup " ++ c ++ " > background_command.log 2>&1 &")
            true).events
    ∨ (runCommandWithMode w t c mode).events = (runCommand w t c false).events := by
  unfold runCommandWithMode
  dsimp only
  split
  · split
    · exact Or.inl rfl
    · split
      · exact Or.inr (Or.inr (Or.inl rfl))
      · exact Or.inr (Or.inl rfl)
  · exact Or.inr (Or.inr (Or.inr rfl))

/-- `runCommandWithMode` only spawns, reprints, or queries the path. -/
lemma mem_runCommandWithMode_events {w : World} {t : Nat} {c mode : String} {e : Event}
    (h : e ∈ (runCommandWithMode w t c mode).events) :
    (∃ c' s', e = Event.exec c' s') ∨ (∃ o, e = Event.reprint o) ∨
      ∃ b, e = Event.checkPath b := by
  rcases runCommandWithMode_events w t c mode with he | he | he | he <;> rw [he] at h
  · simp at h
  · simp only [List.mem_singleton] at h
    exact Or.inr (Or.inr ⟨_, h⟩)
  · simp only [List.mem_cons] at h
    rcases h with h | h
    · exact Or.inr (Or.inr ⟨_, h⟩)
    · rcases mem_runCommand_events h with h' | h'
      · exact Or.inl h'
      · exact Or.inr (Or.inl h')
  · rcases mem_runCommand_events h with h' | h'
    · exact Or.inl h'
    · exact Or.inr (Or.inl h')

/-- `waitForBinary` only queries the path and sleeps. -/
lemma mem_waitForBinary_events {w : World} {t n : Nat} {b : String} {e : Event}
    (h : e ∈ (waitForBinary w t b n).2) :
    (∃ b', e = Event.checkPath b') ∨ e = Event.sleep := by
  induction n generalizing t with
  | zero => simp [waitForBinary] at h
  | succ n ih =>
    unfold waitForBinary at h
    split at h
    · simp only [List.mem_singleton] at h
      exact Or.inl ⟨_, h⟩
    · simp only [List.mem_cons] at h
      rcases h with h | h | h
      · exact Or.inl ⟨_, h⟩
      · exact Or.inr h
      · exact ih h

/-- Any mode other than `"background"` delegates to the Command Executor
in non-suppressed (same-terminal, foreground) mode. -/
lemma runCommandWithMode_default (w : World) (t : Nat) (c mode : String)
    (h : mode ≠ "background") :
    runCommandWithMode w t c mode = runCommand w t c false := by
  unfold runCommandWithMode
  simp [h]

/-- Not suppressing, the stdout buffer stays empty, so the reprint branch
cannot fire: the trace of `runCommand` is the spawn alone. -/
lemma runCommand_false_events (w : World) (t : Nat) (c : String) :
    (runCommand w t c false).events = [Event.exec c false] := by
  unfold runCommand
  dsimp only
  split
  · split
    · rfl
    · rfl
  · split
    · rename_i hcond
      exact absurd rfl hcond.2
    · rfl

/-- The last element of a list survives consing in front. -/
lemma getLast?_cons_some {α : Type} (a : α) {l : List α} {x : α}
    (h : l.getLast? = some x) : (a :: l).getLast? = some x := by
  cases l with
  | nil => simp at h
  | cons b l => rw [List.getLast?_cons_cons]; exact h

/-- Loop branch: the command succeeds; the loop returns `nil` at once. -/
lemma fixStep_ok (w : World)
    (recur : Nat → String → String → String → LoopResult × List Event)
    (t : Nat) (command meta mode : String)
    (hrun : (runCommandWithMode w t command mode).err = none) :
    fixStep w recur t command meta mode =
      (.ok, (runCommandWithMode w t command mode).events) := by
  unfold fixStep
  dsimp only
  rw [hrun]

/-- Loop branch: the command fails and the user declines the suggested
fix; the loop returns the original command's error after one advisor call
and one prompt. -/
lemma fixStep_decline (w : World)
    (recur : Nat → String → String → String → LoopResult × List Event)
    (t : Nat) (command meta mode errMsg : String)
    (hrun : (runCommandWithMode w t command mode).err = some errMsg)
    (hno : askYesNoAccepts
      (w.input (t + (runCommandWithMode w t command mode).events.length + 1)) = false) :
    fixStep w recur t command meta mode =
      (.fail errMsg,
        (runCommandWithMode w t command mode).events ++
          [Event.advisorCall command errMsg meta,
           Event.prompt ((w.advisor (t + (runCommandWithMode w t command mode).events.length)
             command errMsg meta).1)]) := by
  unfold fixStep
  dsimp only
  rw [hrun, hno]
  rfl

/-- Loop branch: the user accepts and the fix's own loop invocation
terminally fails; the loop returns the fix's error. -/
lemma fixStep_fixFail (w : World)
    (recur : Nat → String → String → String → LoopResult × List Event)
    (t : Nat) (command meta mode errMsg fixErr : String)
    (hrun : (runCommandWithMode w t command mode).err = some errMsg)
    (hyes : askYesNoAccepts
      (w.input (t + (runCommandWithMode w t command mode).events.length + 1)) = true)
    (hfail : (recur (t + (runCommandWithMode w t command mode).events.length + 3)
        ((w.advisor (t + (runCommandWithMode w t command mode).events.length)
          command errMsg meta).1) meta "").1 = .fail fixErr) :
    fixStep w recur t command meta mode =
      (.fail fixErr,
        ((runCommandWithMode w t command mode).events ++
          [Event.advisorCall command errMsg meta,
           Event.prompt ((w.advisor (t + (runCommandWithMode w t command mode).events.length)
             command errMsg meta).1)]) ++
          Event.fixLaunch ((w.advisor (t + (runCommandWithMode w t command mode).events.length)
            command errMsg meta).1) "" ::
            (recur (t + (runCommandWithMode w t command mode).events.length + 3)
              ((w.advisor (t + (runCommandWithMode w t command mode).events.length)
                command errMsg meta).1) meta "").2) := by
  unfold fixStep
  dsimp only
  simp only [hrun]
  rw [hyes, hfail]
  rfl

/-- Loop branch: the user accepts and the fix's own loop invocation runs
out of the embedding's fuel. -/
lemma fixStep_fixFuelOut (w : World)
    (recur : Nat → String → String → String → LoopResult × List Event)
    (t : Nat) (command meta mode errMsg : String)
    (hrun : (runCommandWithMode w t command mode).err = some errMsg)
    (hyes : askYesNoAccepts
      (w.input (t + (runCommandWithMode w t command mode).events.length + 1)) = true)
    (hfo : (recur (t + (runCommandWithMode w t command mode).events.length + 3)
        ((w.advisor (t + (runCommandWithMode w t command mode).events.length)
          command errMsg meta).1) meta "").1 = .fuelOut) :
    fixStep w recur t command meta mode =
      (.fuelOut,
        ((runCommandWithMode w t command mode).events ++
          [Event.advisorCall command errMsg meta,
           Event.prompt ((w.advisor (t + (runCommandWithMode w t command mode).events.length)
             command errMsg meta).1)]) ++
          Event.fixLaunch ((w.advisor (t + (runCommandWithMode w t command mode).events.length)
            command errMsg meta).1) "" ::
            (recur (t + (runCommandWithMode w t command mode).events.length + 3)
              ((w.advisor (t + (runCommandWithMode w t command mode).events.length)
                command errMsg meta).1) meta "").2) := by
  unfold fixStep
  dsimp only
  simp only [hrun]
  rw [hyes, hfo]
  rfl

/-- Loop branch: the user accepts, the fix loop succeeds, and the
original mode is not background; the loop re-runs the original command
with its original meta and mode. -/
lemma fixStep_retry (w : World)
    (recur : Nat → String → String → String → LoopResult × List Event)
    (t : Nat) (command meta mode errMsg : String)
    (hrun : (runCommandWithMode w t command mode).err = some errMsg)
    (hyes : askYesNoAccepts
      (w.input (t + (runCommandWithMode w t command mode).events.length + 1)) = true)
    (hok : (recur (t + (runCommandWithMode w t command mode).events.length + 3)
        ((w.advisor (t + (runCommandWithMode w t command mode).events.length)
          command errMsg meta).1) meta "").1 = .ok)
    (hmode : ¬ mode = "background") :
    fixStep w recur t command meta mode =
      ((recur (t + (runCommandWithMode w t command mode).events.length + 3 +
          (recur (t + (runCommandWithMode w t command mode).events.length + 3)
            ((w.advisor (t + (runCommandWithMode w t command mode).events.length)
              command errMsg meta).1) meta "").2.length) command meta mode).1,
        (((runCommandWithMode w t command mode).events ++
          [Event.advisorCall command errMsg meta,
           Event.prompt ((w.advisor (t + (runCommandWithMode w t command mode).events.length)
             command errMsg meta).1)]) ++
          Event.fixLaunch ((w.advisor (t + (runCommandWithMode w t command mode).events.length)
            command errMsg meta).1) "" ::
            (recur (t + (runCommandWithMode w t command mode).events.length + 3)
              ((w.advisor (t + (runCommandWithMode w t command mode).events.length)
                command errMsg meta).1) meta "").2) ++
          (recur (t + (runCommandWithMode w t command mode).events.length + 3 +
            (recur (t + (runCommandWithMode w t command mode).events.length + 3)
              ((w.advisor (t + (runCommandWithMode w t command mode).events.length)
                command errMsg meta).1) meta "").2.length) command meta mode).2) := by
  unfold fixStep
  dsimp only
  simp only [hrun]
  rw [hyes, hok, if_neg hmode]
  rfl

/-- Loop branch, background mode: the fix loop succeeds and the poller
finds the original command's binary; the loop re-runs the original
command with its original meta and mode. -/
lemma fixStep_bg_poll_ok (w : World)
    (recur : Nat → String → String → String → LoopResult × List Event)
    (t : Nat) (command meta errMsg : String)
    (hrun : (runCommandWithMode w t command "background").err = some errMsg)
    (hyes : askYesNoAccepts
      (w.input (t + (runCommandWithMode w t command "background").events.length + 1)) = true)
    (hok : (recur (t + (runCommandWithMode w t command "background").events.length + 3)
        ((w.advisor (t + (runCommandWithMode w t command "background").events.length)
          command errMsg meta).1) meta "").1 = .ok)
    (hpoll : (waitForBinary w
        (t + (runCommandWithMode w t command "background").events.length + 3 +
          (recur (t + (runCommandWithMode w t command "background").events.length + 3)
            ((w.advisor (t + (runCommandWithMode w t command "background").events.length)
              command errMsg meta).1) meta "").2.length)
        (getBinaryName command) 10).1 = true) :
    fixStep w recur t command meta "background" =
      ((recur (t + (runCommandWithMode w t command "background").events.length + 3 +
          (recur (t + (runCommandWithMode w t command "background").events.length + 3)
            ((w.advisor (t + (runCommandWithMode w t command "background").events.length)
              command errMsg meta).1) meta "").2.length +
          (waitForBinary w
            (t + (runCommandWithMode w t command "background").events.length + 3 +
              (recur (t + (runCommandWithMode w t command "background").events.length + 3)
                ((w.advisor (t + (runCommandWithMode w t command "background").events.length)
                  command errMsg meta).1) meta "").2.length)
            (getBinaryName command) 10).2.length) command meta "background").1,
        (((runCommandWithMode w t command "background").events ++
          [Event.advisorCall command errMsg meta,
           Event.prompt ((w.advisor (t + (runCommandWithMode w t command "background").events.length)
             command errMsg meta).1)]) ++
          Event.fixLaunch ((w.advisor (t + (runCommandWithMode w t command "background").events.length)
            command errMsg meta).1) "" ::
            (recur (t + (runCommandWithMode w t command "background").events.length + 3)
              ((w.advisor (t + (runCommandWithMode w t command "background").events.length)
                command errMsg meta).1) meta "").2) ++
          ((waitForBinary w
            (t + (runCommandWithMode w t command "background").events.length + 3 +
              (recur (t + (runCommandWithMode w t command "background").events.length + 3)
                ((w.advisor (t + (runCommandWithMode w t command "background").events.length)
                  command errMsg meta).1) meta "").2.length)
            (getBinaryName command) 10).2 ++
          (recur (t + (runCommandWithMode w t command "background").events.length + 3 +
            (recur (t + (runCommandWithMode w t command "background").events.length + 3)
              ((w.advisor (t + (runCommandWithMode w t command "background").events.length)
                command errMsg meta).1) meta "").2.length +
            (waitForBinary w
              (t + (runCommandWithMode w t command "background").events.length + 3 +
                (recur (t + (runCommandWithMode w t command "background").events.length + 3)
                  ((w.advisor (t + (runCommandWithMode w t command "background").events.length)
                    command errMsg meta).1) meta "").2.length)
              (getBinaryName command) 10).2.length) command meta "background").2)) := by
  unfold fixStep
  dsimp only
  simp only [hrun]
  rw [hyes, hok, hpoll]
  simp

/-- Loop branch, background mode: the fix loop succeeds but the poller
never finds the original command's binary; the loop fails with the
distinct still-not-found error. -/
lemma fixStep_bg_poll_fail (w : World)
    (recur : Nat → String → String → String → LoopResult × List Event)
    (t : Nat) (command meta errMsg : String)
    (hrun : (runCommandWithMode w t command "background").err = some errMsg)
    (hyes : askYesNoAccepts
      (w.input (t + (runCommandWithMode w t command "background").events.length + 1)) = true)
    (hok : (recur (t + (runCommandWithMode w t command "background").events.length + 3)
        ((w.advisor (t + (runCommandWithMode w t command "background").events.length)
          command errMsg meta).1) meta "").1 = .ok)
    (hpoll : (waitForBinary w
        (t + (runCommandWithMode w t command "background").events.length + 3 +
          (recur (t + (runCommandWithMode w t command "background").events.length + 3)
            ((w.advisor (t + (runCommandWithMode w t command "background").events.length)
              command errMsg meta).1) meta "").2.length)
        (getBinaryName command) 10).1 = false) :
    fixStep w recur t command meta "background" =
      (.fail ("binary '" ++ getBinaryName command ++ "' still not found after fix"),
        (((runCommandWithMode w t command "background").events ++
          [Event.advisorCall command errMsg meta,
           Event.prompt ((w.advisor (t + (runCommandWithMode w t command "background").events.length)
             command errMsg meta).1)]) ++
          Event.fixLaunch ((w.advisor (t + (runCommandWithMode w t command "background").events.length)
            command errMsg meta).1) "" ::
            (recur (t + (runCommandWithMode w t command "background").events.length + 3)
              ((w.advisor (t + (runCommandWithMode w t command "background").events.length)
                command errMsg meta).1) meta "").2) ++
          (waitForBinary w
            (t + (runCommandWithMode w t command "background").events.length + 3 +
              (recur (t + (runCommandWithMode w t command "background").events.length + 3)
                ((w.advisor (t + (runCommandWithMode w t command "background").events.length)
                  command errMsg meta).1) meta "").2.length)
            (getBinaryName command) 10).2) := by
  unfold fixStep
  dsimp only
  simp only [hrun]
  rw [hyes, hok, hpoll]
  simp

/-- `runCommandWithMode` makes no advisor call and launches no fix. -/
lemma runCommandWithMode_countP_loop (w : World) (t : Nat) (c mode : String) :
    (runCommandWithMode w t c mode).events.countP isAdvisorCall = 0
    ∧ (runCommandWithMode w t c mode).events.countP isFixLaunch = 0 := by
  constructor <;>
    refine List.countP_eq_zero.mpr (fun e he => ?_) <;>
    rcases mem_runCommandWithMode_events he with ⟨c', s', rfl⟩ | ⟨o, rfl⟩ | ⟨b, rfl⟩ <;>
    simp [isAdvisorCall, isFixLaunch]

/-- A fix launch is never an event of `runCommandWithMode`. -/
lemma fixLaunch_not_mem_runCommandWithMode {w : World} {t : Nat} {c mode f md : String}
    (h : Event.fixLaunch f md ∈ (runCommandWithMode w t c mode).events) : False := by
  rcases mem_runCommandWithMode_events h with ⟨c', s', he⟩ | ⟨o, he⟩ | ⟨b, he⟩ <;> simp at he

/-- A fix launch is never an event of `waitForBinary`. -/
lemma fixLaunch_not_mem_waitForBinary {w : World} {t n : Nat} {b f md : String}
    (h : Event.fixLaunch f md ∈ (waitForBinary w t b n).2) : False := by
  rcases mem_waitForBinary_events h with ⟨b', he⟩ | he <;> simp at he

/-- C9: the yes/no prompt accepts exactly the lines that lowercase to
`"y"` or `"yes"`; the empty line, lines with surrounding whitespace, and
everything else are negative, while case variants of y/yes are
affirmative. -/
theorem C9_theorem (resp : String) :
    (askYesNoAccepts resp = true ↔ toLowerStr resp = "y" ∨ toLowerStr resp = "yes")
    ∧ askYesNoAccepts "" = false
    ∧ askYesNoAccepts "  y  " = false
    ∧ askYesNoAccepts " yes" = false
    ∧ askYesNoAccepts "YES" = true
    ∧ askYesNoAccepts "Yes" = true
    ∧ askYesNoAccepts "n" = false := by
  refine ⟨?_, by decide, by decide, by decide, by decide, by decide, by decide⟩
  simp [askYesNoAccepts]

/-- C10: with `suppressOutput = false` the stdout buffer is empty when the
child exits (the child's stdout is wired to the terminal instead), so the
post-completion reprint of buffered stdout never runs, and on non-zero
exit the returned error is the buffered stderr, with no stdout in it. -/
theorem C10_theorem (w : World) (t : Nat) (command : String) :
    stdoutBufferContents w t command false = ""
    ∧ (runCommand w t command false).events.countP isReprint = 0
    ∧ ((w.cmdRes t command).exitZero = false →
        (runCommand w t command false).err = some (w.cmdRes t command).stderr) := by
  refine ⟨rfl, ?_, ?_⟩
  · rw [runCommand_false_events]
    simp [isReprint]
  · intro h
    unfold runCommand
    simp [h, stdoutBufferContents]

/-- C3, as stated, is false: on non-zero exit with `suppressOutput = true`
the error is the trimmed `stdout ++ "\n" ++ stderr` — with a newline
inserted between the two buffers — not the trimmed plain concatenation:
with stdout `a` and stderr `b` the code yields `"a\nb"`, not `"ab"`. -/
theorem C3_counterexample :
    (runCommand wOutErr 0 "c" true).err = some "a\nb"
    ∧ ("a\nb" : String) ≠
        trimStr ((wOutErr.cmdRes 0 "c").stdout ++ (wOutErr.cmdRes 0 "c").stderr) := by
  decide

/-- C3 amended: for every command that exits non-zero, the errorText with
`suppressOutput = true` is the trimmed concatenation of buffered stdout, a
newline separator, and buffered stderr; with `suppressOutput = false` it
is the buffered stderr only. -/
theorem C3_theorem (w : World) (t : Nat) (command : String)
    (h : (w.cmdRes t command).exitZero = false) :
    (runCommand w t command true).err =
      some (trimStr ((w.cmdRes t command).stdout ++ "\n" ++ (w.cmdRes t command).stderr))
    ∧ (runCommand w t command false).err = some (w.cmdRes t command).stderr := by
  constructor <;> (unfold runCommand; simp [h, stdoutBufferContents])

/-- C3 witness: the amended statement at a concrete failing command. -/
theorem C3_witness :
    (wOutErr.cmdRes 0 "c").exitZero = false
    ∧ ((runCommand wOutErr 0 "c" true).err =
        some (trimStr ((wOutErr.cmdRes 0 "c").stdout ++ "\n" ++ (wOutErr.cmdRes 0 "c").stderr))
      ∧ (runCommand wOutErr 0 "c" false).err = some (wOutErr.cmdRes 0 "c").stderr) :=
  ⟨by decide, C3_theorem wOutErr 0 "c" (by decide)⟩

/-- C2, as stated, is false: when the background precondition passes, the
wrapped `nohup ... > background_command.log 2>&1 &` command is launched
via the Command Executor with `suppressOutput = true` (suppressed), not
`false`: the trace holds one suppressed spawn and no non-suppressed one. -/
theorem C2_counterexample :
    runCommandWithMode wAllOk 0 "mybin arg" "background" =
      { err := none
        events := [Event.checkPath "mybin",
          Event.exec "nohup mybin arg > background_command.log 2>&1 &" true] }
    ∧ (runCommandWithMode wAllOk 0 "mybin arg" "background").events.countP
        (isExecWith false) = 0
    ∧ (runCommandWithMode wAllOk 0 "mybin arg" "background").events.countP
        (isExecWith true) = 1 := by
  decide

/-- C2 amended: for every background-mode command whose precondition
passes, the wrapped detach-and-redirect command is launched via the
Command Executor in suppressed mode (`suppressOutput = true`). -/
theorem C2_theorem (w : World) (t : Nat) (command : String)
    (h1 : getBinaryName command ≠ "")
    (h2 : w.path t (getBinaryName command) = true) :
    runCommandWithMode w t command "background" =
      { err := (runCommand w (t + 1)
          ("nohup " ++ command ++ " > background_command.log 2>&1 &") true).err
        events := Event.checkPath (getBinaryName command)
          :: (runCommand w (t + 1)
            ("nohup " ++ command ++ " > background_command.log 2>&1 &") true).events } := by
  unfold runCommandWithMode
  simp [h1, h2]

/-- C2 witness: the amended statement at a concrete background command. -/
theorem C2_witness :
    (getBinaryName "mybin arg" ≠ "" ∧ wAllOk.path 0 (getBinaryName "mybin arg") = true)
    ∧ runCommandWithMode wAllOk 0 "mybin arg" "background" =
      { err := (runCommand wAllOk 1
          ("nohup " ++ "mybin arg" ++ " > background_command.log 2>&1 &") true).err
        events := Event.checkPath (getBinaryName "mybin arg")
          :: (runCommand wAllOk 1
            ("nohup " ++ "mybin arg" ++ " > background_command.log 2>&1 &") true).events } :=
  ⟨⟨by decide, by decide⟩, C2_theorem wAllOk 0 "mybin arg" (by decide) (by decide)⟩

/-- C5: a background-mode run whose leading token is empty or names a
binary absent from the search path fails at once with an error and spawns
nothing: no `exec` event, hence no child process and no
`background_command.log` (the log is only ever produced by the spawned
wrapper command). -/
theorem C5_theorem (w : World) (t : Nat) (command : String)
    (h : getBinaryName command = "" ∨ w.path t (getBinaryName command) = false) :
    (runCommandWithMode w t command "background").err.isSome = true
    ∧ (runCommandWithMode w t command "background").events.countP isExec = 0 := by
  unfold runCommandWithMode
  rcases h with h | h
  · simp [h]
  · by_cases h0 : getBinaryName command = ""
    · simp [h0]
    · simp [h0, h, isExec]

/-- C5 witness: a binary absent from the search path. -/
theorem C5_witness :
    (getBinaryName "nonexistent-binary-xyz arg" = ""
      ∨ wAbsent.path 0 (getBinaryName "nonexistent-binary-xyz arg") = false)
    ∧ ((runCommandWithMode wAbsent 0 "nonexistent-binary-xyz arg" "background").err.isSome = true
      ∧ (runCommandWithMode wAbsent 0 "nonexistent-binary-xyz arg" "background").events.countP
          isExec = 0) :=
  ⟨Or.inr (by decide),
    C5_theorem wAbsent 0 "nonexistent-binary-xyz arg" (Or.inr (by decide))⟩

/-- C8, as stated, is false: the poller does not sleep only between failed
checks — it sleeps after every failed check, the last included.  With the
binary never on the path and three attempts, the trace holds three checks
and three sleeps (not two) and ends with a sleep, not a check. -/
theorem C8_counterexample :
    waitForBinary wAbsent 0 "toolx" 3 = (false, pollFailTrace "toolx" 3)
    ∧ (waitForBinary wAbsent 0 "toolx" 3).2.countP isSleep = 3
    ∧ (waitForBinary wAbsent 0 "toolx" 3).2.countP isCheckPath = 3
    ∧ (waitForBinary wAbsent 0 "toolx" 3).2.getLast? = some Event.sleep := by
  decide

/-- C8 amended: the poller checks the path once per attempt up to
`maxAttempts` times and sleeps once after each failed check, the final one
included (so exhaustion produces `maxAttempts` checks each followed by a
sleep, and returns false); it returns true on the first successful check
with no sleep after that success — in particular immediately, with a
one-event trace, when the binary is present at the first check. -/
theorem C8_theorem (w : World) (t n : Nat) (binary : String) :
    ((∀ k, k < n → w.path (t + 2 * k) binary = false) →
      waitForBinary w t binary n = (false, pollFailTrace binary n))
    ∧ (0 < n → w.path t binary = true →
      waitForBinary w t binary n = (true, [Event.checkPath binary]))
    ∧ ((waitForBinary w t binary n).1 = true →
      (waitForBinary w t binary n).2.getLast? = some (Event.checkPath binary)) := by
  refine ⟨?_, ?_, ?_⟩
  · induction n generalizing t with
    | zero => intro _; rfl
    | succ n ih =>
      intro h
      have h0 : w.path t binary = false := by simpa using h 0 (Nat.succ_pos n)
      unfold waitForBinary
      rw [h0]
      have hrest := ih (t + 2) (fun k hk => by
        have := h (k + 1) (Nat.succ_lt_succ hk)
        rwa [show t + 2 * (k + 1) = t + 2 + 2 * k by ring] at this)
      simp only [hrest, pollFailTrace]
      rfl
  · intro hn hp
    cases n with
    | zero => exact absurd hn (by simp)
    | succ n => unfold waitForBinary; rw [hp]; rfl
  · induction n generalizing t with
    | zero => intro h; simp [waitForBinary] at h
    | succ n ih =>
      intro h
      unfold waitForBinary at h ⊢
      by_cases hp : w.path t binary = true
      · rw [hp]; rfl
      · rw [eq_false_of_ne_true hp] at h ⊢
        simp only at h
        have := ih (t + 2) h
        exact getLast?_cons_some _ (getLast?_cons_some _ this)

/-- C1, as stated, is false: with a failing command and an unavailable
advisor (empty fix, missing-credential explanation) the loop does not
terminate immediately and silently — it still presents the empty
suggestion and prompts the user, and with a user who keeps accepting it
launches the empty fix and calls the advisor again on each retry: three
advisor calls within fuel 3, one prompt with the empty fix, one launch of
the empty fix. -/
theorem C1_counterexample :
    (fixAndRunCommandWithMeta wAcceptUnavailable 3 0 "mycmd" "" "").2.count
        (Event.advisorCall "mycmd" "boom" "") = 3
    ∧ Event.prompt "" ∈ (fixAndRunCommandWithMeta wAcceptUnavailable 3 0 "mycmd" "" "").2
    ∧ Event.fixLaunch "" "" ∈ (fixAndRunCommandWithMeta wAcceptUnavailable 3 0 "mycmd" "" "").2 := by
  decide

/-- C1 amended: when the command fails and the advisor is unavailable
(empty fix), the loop still prompts the user once; if the user declines,
it terminates with exactly one terminal failure carrying the original
command's error, after exactly one advisor call and with no fix
launched. -/
theorem C1_theorem (w : World) (fuel t : Nat) (command meta mode errMsg : String)
    (hrun : (runCommandWithMode w t command mode).err = some errMsg)
    (hunavail : ((w.advisor (t + (runCommandWithMode w t command mode).events.length)
        command errMsg meta).1) = "")
    (hno : askYesNoAccepts
      (w.input (t + (runCommandWithMode w t command mode).events.length + 1)) = false) :
    fixAndRunCommandWithMeta w (fuel + 1) t command meta mode =
      (.fail errMsg,
        (runCommandWithMode w t command mode).events ++
          [Event.advisorCall command errMsg meta, Event.prompt ""])
    ∧ (fixAndRunCommandWithMeta w (fuel + 1) t command meta mode).2.countP isAdvisorCall = 1
    ∧ (fixAndRunCommandWithMeta w (fuel + 1) t command meta mode).2.countP isFixLaunch = 0 := by
  have he := fixStep_decline w (fixAndRunCommandWithMeta w fuel) t command meta mode errMsg
    hrun hno
  rw [hunavail] at he
  rw [fixAndRun_succ, he]
  refine ⟨rfl, ?_, ?_⟩
  · rw [List.countP_append, (runCommandWithMode_countP_loop w t command mode).1]
    rfl
  · rw [List.countP_append, (runCommandWithMode_countP_loop w t command mode).2]
    rfl

/-- C1 witness: the amended statement at a failing command, an
unavailable advisor and a declining user. -/
theorem C1_witness :
    fixAndRunCommandWithMeta wDeclineUnavailable 1 0 "mycmd" "" "" =
      (.fail "boom",
        (runCommandWithMode wDeclineUnavailable 0 "mycmd" "").events ++
          [Event.advisorCall "mycmd" "boom" "", Event.prompt ""])
    ∧ (fixAndRunCommandWithMeta wDeclineUnavailable 1 0 "mycmd" "" "").2.countP isAdvisorCall = 1
    ∧ (fixAndRunCommandWithMeta wDeclineUnavailable 1 0 "mycmd" "" "").2.countP isFixLaunch = 0 :=
  C1_theorem wDeclineUnavailable 0 0 "mycmd" "" "" "boom" (by decide) (by decide) (by decide)

/-- C4: in every run of the Self-Healing Loop, every fix launch recorded
in the trace carries the mode argument `""` — the same-terminal default —
regardless of the original step's mode; and mode `""` delegates to the
Command Executor in non-suppressed foreground mode, so fixes are never
launched in background mode. -/
theorem C4_theorem (w : World) (fuel t : Nat) (command meta mode f md : String)
    (h : Event.fixLaunch f md ∈ (fixAndRunCommandWithMeta w fuel t command meta mode).2) :
    md = "" ∧ runCommandWithMode w t f "" = runCommand w t f false := by
  refine ⟨?_, runCommandWithMode_default w t f "" (by decide)⟩
  induction fuel generalizing t command mode with
  | zero =>
    rw [fixAndRun_zero] at h
    simp at h
  | succ fuel ih =>
    rw [fixAndRun_succ] at h
    rcases herr : (runCommandWithMode w t command mode).err with _ | errMsg
    · rw [fixStep_ok w (fixAndRunCommandWithMeta w fuel) t command meta mode herr] at h
      exact (fixLaunch_not_mem_runCommandWithMode h).elim
    · by_cases hyn : askYesNoAccepts
          (w.input (t + (runCommandWithMode w t command mode).events.length + 1)) = true
      case neg =>
        rw [fixStep_decline w (fixAndRunCommandWithMeta w fuel) t command meta mode errMsg herr
          (by simpa using hyn)] at h
        rcases List.mem_append.mp h with h | h
        · exact (fixLaunch_not_mem_runCommandWithMode h).elim
        · simp at h
      case pos =>
        cases hin : (fixAndRunCommandWithMeta w fuel
            (t + (runCommandWithMode w t command mode).events.length + 3)
            ((w.advisor (t + (runCommandWithMode w t command mode).events.length)
              command errMsg meta).1) meta "").1 with
        | ok =>
          by_cases hm : mode = "background"
          · subst hm
            by_cases hp : (waitForBinary w
                (t + (runCommandWithMode w t command "background").events.length + 3 +
                  (fixAndRunCommandWithMeta w fuel
                    (t + (runCommandWithMode w t command "background").events.length + 3)
                    ((w.advisor (t + (runCommandWithMode w t command "background").events.length)
                      command errMsg meta).1) meta "").2.length)
                (getBinaryName command) 10).1 = true
            · rw [fixStep_bg_poll_ok w (fixAndRunCommandWithMeta w fuel) t command meta errMsg
                herr hyn hin hp] at h
              rcases List.mem_append.mp h with h | h
              · rcases List.mem_append.mp h with h | h
                · rcases List.mem_append.mp h with h | h
                  · exact (fixLaunch_not_mem_runCommandWithMode h).elim
                  · simp at h
                · rcases List.mem_cons.mp h with h | h
                  · simp only [Event.fixLaunch.injEq] at h
                    exact h.2
                  · exact ih _ _ _ h
              · rcases List.mem_append.mp h with h | h
                · exact (fixLaunch_not_mem_waitForBinary h).elim
                · exact ih _ _ _ h
            · rw [fixStep_bg_poll_fail w (fixAndRunCommandWithMeta w fuel) t command meta errMsg
                herr hyn hin (by simpa using hp)] at h
              rcases List.mem_append.mp h with h | h
              · rcases List.mem_append.mp h with h | h
                · rcases List.mem_append.mp h with h | h
                  · exact (fixLaunch_not_mem_runCommandWithMode h).elim
                  · simp at h
                · rcases List.mem_cons.mp h with h | h
                  · simp only [Event.fixLaunch.injEq] at h
                    exact h.2
                  · exact ih _ _ _ h
              · exact (fixLaunch_not_mem_waitForBinary h).elim
          · rw [fixStep_retry w (fixAndRunCommandWithMeta w fuel) t command meta mode errMsg
              herr hyn hin hm] at h
            rcases List.mem_append.mp h with h | h
            · rcases List.mem_append.mp h with h | h
              · rcases List.mem_append.mp h with h | h
                · exact (fixLaunch_not_mem_runCommandWithMode h).elim
                · simp at h
              · rcases List.mem_cons.mp h with h | h
                · simp only [Event.fixLaunch.injEq] at h
                  exact h.2
                · exact ih _ _ _ h
            · exact ih _ _ _ h
        | fail fixErr =>
          rw [fixStep_fixFail w (fixAndRunCommandWithMeta w fuel) t command meta mode errMsg
            fixErr herr hyn hin] at h
          rcases List.mem_append.mp h with h | h
          · rcases List.mem_append.mp h with h | h
            · exact (fixLaunch_not_mem_runCommandWithMode h).elim
            · simp at h
          · rcases List.mem_cons.mp h with h | h
            · simp only [Event.fixLaunch.injEq] at h
              exact h.2
            · exact ih _ _ _ h
        | fuelOut =>
          rw [fixStep_fixFuelOut w (fixAndRunCommandWithMeta w fuel) t command meta mode errMsg
            herr hyn hin] at h
          rcases List.mem_append.mp h with h | h
          · rcases List.mem_append.mp h with h | h
            · exact (fixLaunch_not_mem_runCommandWithMode h).elim
            · simp at h
          · rcases List.mem_cons.mp h with h | h
            · simp only [Event.fixLaunch.injEq] at h
              exact h.2
            · exact ih _ _ _ h

/-- C4 witness: a run in which a fix is actually launched. -/
theorem C4_witness :
    ("" : String) = ""
    ∧ runCommandWithMode wAcceptUnavailable 0 "" "" = runCommand wAcceptUnavailable 0 "" false :=
  C4_theorem wAcceptUnavailable 3 0 "mycmd" "" "" "" "" (by decide)

/-- C7: every terminal failure of the loop is one of: an error string the
original command itself produced under its own mode (in particular the
user-decline outcome), the distinct poller error naming the original
command's binary, or the terminal failure of a fix's own recursive loop
invocation (which masks the original command's error). -/
theorem C7_theorem (w : World) (fuel t : Nat) (command meta mode e : String)
    (h : (fixAndRunCommandWithMeta w fuel t command meta mode).1 = .fail e) :
    (∃ t', (runCommandWithMode w t' command mode).err = some e)
    ∨ e = "binary '" ++ getBinaryName command ++ "' still not found after fix"
    ∨ ∃ fuel' t' fix, (fixAndRunCommandWithMeta w fuel' t' fix meta "").1 = .fail e := by
  induction fuel generalizing t with
  | zero =>
    rw [fixAndRun_zero] at h
    exact absurd h (by simp)
  | succ fuel ih =>
    rw [fixAndRun_succ] at h
    rcases herr : (runCommandWithMode w t command mode).err with _ | errMsg
    · rw [fixStep_ok w (fixAndRunCommandWithMeta w fuel) t command meta mode herr] at h
      exact absurd h (by simp)
    · by_cases hyn : askYesNoAccepts
          (w.input (t + (runCommandWithMode w t command mode).events.length + 1)) = true
      case neg =>
        rw [fixStep_decline w (fixAndRunCommandWithMeta w fuel) t command meta mode errMsg herr
          (by simpa using hyn)] at h
        have h' : LoopResult.fail errMsg = LoopResult.fail e := h
        injection h' with h''
        subst h''
        exact Or.inl ⟨t, herr⟩
      case pos =>
        cases hin : (fixAndRunCommandWithMeta w fuel
            (t + (runCommandWithMode w t command mode).events.length + 3)
            ((w.advisor (t + (runCommandWithMode w t command mode).events.length)
              command errMsg meta).1) meta "").1 with
        | ok =>
          by_cases hm : mode = "background"
          · subst hm
            by_cases hp : (waitForBinary w
                (t + (runCommandWithMode w t command "background").events.length + 3 +
                  (fixAndRunCommandWithMeta w fuel
                    (t + (runCommandWithMode w t command "background").events.length + 3)
                    ((w.advisor (t + (runCommandWithMode w t command "background").events.length)
                      command errMsg meta).1) meta "").2.length)
                (getBinaryName command) 10).1 = true
            · rw [fixStep_bg_poll_ok w (fixAndRunCommandWithMeta w fuel) t command meta errMsg
                herr hyn hin hp] at h
              exact ih _ h
            · rw [fixStep_bg_poll_fail w (fixAndRunCommandWithMeta w fuel) t command meta errMsg
                herr hyn hin (by simpa using hp)] at h
              have h' : LoopResult.fail
                  ("binary '" ++ getBinaryName command ++ "' still not found after fix") =
                  LoopResult.fail e := h
              injection h' with h''
              exact Or.inr (Or.inl h''.symm)
          · rw [fixStep_retry w (fixAndRunCommandWithMeta w fuel) t command meta mode errMsg
              herr hyn hin hm] at h
            exact ih _ h
        | fail fixErr =>
          rw [fixStep_fixFail w (fixAndRunCommandWithMeta w fuel) t command meta mode errMsg
            fixErr herr hyn hin] at h
          have h' : LoopResult.fail fixErr = LoopResult.fail e := h
          injection h' with h''
          subst h''
          exact Or.inr (Or.inr
            ⟨fuel, t + (runCommandWithMode w t command mode).events.length + 3,
              (w.advisor (t + (runCommandWithMode w t command mode).events.length)
                command errMsg meta).1, hin⟩)
        | fuelOut =>
          rw [fixStep_fixFuelOut w (fixAndRunCommandWithMeta w fuel) t command meta mode errMsg
            herr hyn hin] at h
          exact absurd h (by simp)

/-- C7 witness: a terminal failure produced by a declining user. -/
theorem C7_witness :
    (∃ t', (runCommandWithMode wDeclineUnavailable t' "mycmd" "").err = some "boom")
    ∨ "boom" = "binary '" ++ getBinaryName "mycmd" ++ "' still not found after fix"
    ∨ ∃ fuel' t' fix,
        (fixAndRunCommandWithMeta wDeclineUnavailable fuel' t' fix "" "").1 = .fail "boom" :=
  C7_theorem wDeclineUnavailable 1 0 "mycmd" "" "" "boom" (by decide)

/-- C6: when a fix's recursive loop invocation succeeds, then — if the
original step's mode was `"background"` — the Binary Readiness Poller runs
on the original command's first whitespace-delimited token; a false poll
ends the loop with the distinct still-not-found error, while a true poll
(or any non-background original mode) re-runs the loop on the original
command with its original meta and mode. -/
theorem C6_theorem (w : World) (fuel t : Nat) (command meta mode errMsg fix : String)
    (hrun : (runCommandWithMode w t command mode).err = some errMsg)
    (hfix : ((w.advisor (t + (runCommandWithMode w t command mode).events.length)
        command errMsg meta).1) = fix)
    (hyes : askYesNoAccepts
      (w.input (t + (runCommandWithMode w t command mode).events.length + 1)) = true)
    (hok : (fixAndRunCommandWithMeta w fuel
        (t + (runCommandWithMode w t command mode).events.length + 3) fix meta "").1 = .ok) :
    (mode = "background" →
      ((waitForBinary w (t + (runCommandWithMode w t command mode).events.length + 3 +
          (fixAndRunCommandWithMeta w fuel
            (t + (runCommandWithMode w t command mode).events.length + 3) fix meta "").2.length)
          (getBinaryName command) 10).1 = false →
        (fixAndRunCommandWithMeta w (fuel + 1) t command meta mode).1 =
          .fail ("binary '" ++ getBinaryName command ++ "' still not found after fix"))
      ∧ ((waitForBinary w (t + (runCommandWithMode w t command mode).events.length + 3 +
          (fixAndRunCommandWithMeta w fuel
            (t + (runCommandWithMode w t command mode).events.length + 3) fix meta "").2.length)
          (getBinaryName command) 10).1 = true →
        (fixAndRunCommandWithMeta w (fuel + 1) t command meta mode).1 =
          (fixAndRunCommandWithMeta w fuel
            (t + (runCommandWithMode w t command mode).events.length + 3 +
              (fixAndRunCommandWithMeta w fuel
                (t + (runCommandWithMode w t command mode).events.length + 3)
                fix meta "").2.length +
              (waitForBinary w (t + (runCommandWithMode w t command mode).events.length + 3 +
                (fixAndRunCommandWithMeta w fuel
                  (t + (runCommandWithMode w t command mode).events.length + 3)
                  fix meta "").2.length)
                (getBinaryName command) 10).2.length)
            command meta mode).1))
    ∧ (¬ mode = "background" →
      (fixAndRunCommandWithMeta w (fuel + 1) t command meta mode).1 =
        (fixAndRunCommandWithMeta w fuel
          (t + (runCommandWithMode w t command mode).events.length + 3 +
            (fixAndRunCommandWithMeta w fuel
              (t + (runCommandWithMode w t command mode).events.length + 3)
              fix meta "").2.length)
          command meta mode).1) := by
  subst hfix
  constructor
  · intro hm
    subst hm
    constructor
    · intro hpoll
      rw [fixAndRun_succ, fixStep_bg_poll_fail w (fixAndRunCommandWithMeta w fuel) t command
        meta errMsg hrun hyes hok hpoll]
    · intro hpoll
      rw [fixAndRun_succ, fixStep_bg_poll_ok w (fixAndRunCommandWithMeta w fuel) t command
        meta errMsg hrun hyes hok hpoll]
  · intro hm
    rw [fixAndRun_succ, fixStep_retry w (fixAndRunCommandWithMeta w fuel) t command meta mode
      errMsg hrun hyes hok hm]

/-- C6 witness: a failing command, an accepted fix whose loop invocation
succeeds, and a non-background original mode, so the loop re-runs the
original command. -/
theorem C6_witness :
    (("" : String) = "background" →
      ((waitForBinary wAcceptUnavailable 5 (getBinaryName "mycmd") 10).1 = false →
        (fixAndRunCommandWithMeta wAcceptUnavailable 2 0 "mycmd" "" "").1 =
          .fail ("binary '" ++ getBinaryName "mycmd" ++ "' still not found after fix"))
      ∧ ((waitForBinary wAcceptUnavailable 5 (getBinaryName "mycmd") 10).1 = true →
        (fixAndRunCommandWithMeta wAcceptUnavailable 2 0 "mycmd" "" "").1 =
          (fixAndRunCommandWithMeta wAcceptUnavailable 1 6 "mycmd" "" "").1))
    ∧ (¬ ("" : String) = "background" →
      (fixAndRunCommandWithMeta wAcceptUnavailable 2 0 "mycmd" "" "").1 =
        (fixAndRunCommandWithMeta wAcceptUnavailable 1 5 "mycmd" "" "").1) :=
  C6_theorem wAcceptUnavailable 1 0 "mycmd" "" "" "boom" ""
    (by decide) (by decide) (by decide) (by decide)

end Zup
